import Mathlib

/-!
Shallow embedding of the service-execution core of `owlery`
(`src/owlery/services/__init__.py`): the middleware pipeline that wraps a
channel driver's primitive `open`/`send`/`receive` operations
(`Service._wrap_open`, `Service._wrap_send`, `Service._wrap_receive`,
`Service.outbox`, `Outbox.release`/`Outbox.discard`) and the
`ServiceManager` routing layer (`ServiceManager._update_send`,
`ServiceManager._update_receive`).

Side effects are made explicit as traces of `Action`s: event-bus
publications (`on_before_send`, `on_after_send`, `on_open_session`,
`on_receive_message`) and driver invocations (driver `open`, driver
`send`).  Python keyword-argument dictionaries are abstracted as an
opaque `Fields` value; message objects keep the fields the core
manipulates (`status`, the `service` back-reference).
-/

namespace Owlery

/-- The keyword-argument dictionary passed to `send`, abstracted. -/
abbrev Fields := Nat

/-- The `MessageStatus` literal type from the source:
`draft | queued | sent | received | read | cancelled | error`. -/
inductive MessageStatus where
  | draft
  | queued
  | sent
  | received
  | read
  | cancelled
  | error
  deriving DecidableEq, Repr

/-- The `Message` dataclass, restricted to the fields the core pipeline
reads or writes: `id`, `status`, and the `service` back-reference
(identified by service name). -/
structure Msg where
  id : Option Nat := none
  status : MessageStatus := .draft
  service : Option String := none
  deriving DecidableEq, Repr

/-- Payload attached to an event-bus publication.  The service-level
pipeline publishes the keyword dictionary on `on_before_send`
(`message=kwargs`) and the produced `Message` on `on_after_send`;
the manager publishes the keyword dictionary on both
(`kwargs=kwargs`). -/
inductive Payload where
  | fieldsP (f : Fields)
  | msgP (m : Msg)
  deriving DecidableEq, Repr

/-- One observable action of the pipeline, in program order: an event-bus
publication (with its sender, identified by name) or a driver
invocation. -/
inductive Action where
  | busBeforeSend (sender : String) (p : Payload)
  | busAfterSend (sender : String) (p : Payload)
  | busOpenSession (sender : String)
  | busReceiveMessage (sender : String) (m : Msg)
  | driverOpen (svc : String)
  | driverSend (svc : String) (f : Fields)
  deriving DecidableEq, Repr

/-- The per-service mutable flags set in `Service.__init__`:
`opened` and `suppress`. -/
structure SvcState where
  opened : Bool
  suppress : Bool
  deriving DecidableEq, Repr

/-- The driver contract used by the send-side pipeline: the original
(unwrapped) `open`, which either succeeds or raises, and the original
`send`, which either returns a `Msg` or raises (error abstracted as a
numeric code). -/
structure SendDriver where
  openOk : Bool
  sendRes : Fields → Except Nat Msg

/-- Model of `Service._wrap_open`: the wrapped `open` invokes the driver's open
unconditionally (there is no `opened` guard in the wrapper), then
publishes `on_open_session` and sets `opened = True`.  If the driver's
open raises, the signal is not published and `opened` is left
unchanged.  Returns (trace, new state, success flag). -/
def wrappedOpen (name : String) (d : SendDriver) (st : SvcState) :
    List Action × SvcState × Bool :=
  if d.openOk then
    ([Action.driverOpen name, Action.busOpenSession name],
     { st with opened := true }, true)
  else
    ([Action.driverOpen name], st, false)

/-- Result of one wrapped `send` call: normal return (with the returned
value, `none` when the call returned `None`), or propagation of an
exception raised by the driver's open or the driver's send. -/
inductive SendOutcome where
  | ok (m : Option Msg)
  | openRaised
  | sendRaised
  deriving DecidableEq, Repr

/-- Model of `Service._wrap_send`: publish `on_before_send` (unless the bus is
muted, as during `Outbox.release`), return `None` if `suppress` is set,
lazily `open()` if `opened` is not set, invoke the driver's send, publish
`on_after_send` with the produced message, and return it.  Driver
exceptions propagate and skip the after-send publication. -/
def wrappedSendM (muted : Bool) (name : String) (d : SendDriver)
    (st : SvcState) (f : Fields) :
    List Action × SvcState × SendOutcome :=
  let pre : List Action :=
    if muted then [] else [Action.busBeforeSend name (Payload.fieldsP f)]
  if st.suppress then
    (pre, st, SendOutcome.ok none)
  else
    let opn : List Action × SvcState × Bool :=
      if st.opened then ([], st, true) else wrappedOpen name d st
    if opn.2.2 then
      match d.sendRes f with
      | Except.error _ =>
          (pre ++ opn.1 ++ [Action.driverSend name f], opn.2.1,
           SendOutcome.sendRaised)
      | Except.ok m =>
          (pre ++ opn.1 ++
             [Action.driverSend name f,
              Action.busAfterSend name (Payload.msgP m)],
           opn.2.1, SendOutcome.ok (some m))
    else
      (pre ++ opn.1, opn.2.1, SendOutcome.openRaised)

/-- The ordinary (unmuted) wrapped `send`. -/
def wrappedSend (name : String) (d : SendDriver) (st : SvcState)
    (f : Fields) : List Action × SvcState × SendOutcome :=
  wrappedSendM false name d st f

/-- Two consecutive calls to the wrapped `open`, with the state threaded
through; returns the concatenated trace and the final state. -/
def openTwice (name : String) (d : SendDriver) (st : SvcState) :
    List Action × SvcState :=
  let r1 := wrappedOpen name d st
  let r2 := wrappedOpen name d r1.2.1
  (r1.1 ++ r2.1, r2.2.1)

/-- The driver-send invocations of a trace, in order, projected to their
field sets. -/
def driverSends (tr : List Action) : List Fields :=
  tr.filterMap (fun a =>
    match a with
    | Action.driverSend _ f => some f
    | _ => none)

/-- The driver-open invocations of a trace. -/
def driverOpens (tr : List Action) : List String :=
  tr.filterMap (fun a =>
    match a with
    | Action.driverOpen s => some s
    | _ => none)

/-- The `on_before_send` publications of a trace, projected to their
payloads. -/
def beforeSends (tr : List Action) : List Payload :=
  tr.filterMap (fun a =>
    match a with
    | Action.busBeforeSend _ p => some p
    | _ => none)

/-- The `on_after_send` publications of a trace, projected to their
payloads. -/
def afterSends (tr : List Action) : List Payload :=
  tr.filterMap (fun a =>
    match a with
    | Action.busAfterSend _ p => some p
    | _ => none)

/-- One registered service as the `ServiceManager` sees it: its name (the
registry key), its capability flags, its mutable state, its send-side
driver, and its receive-side driver (the original `receive`, as a
function from the passed `limit` to the yielded messages; the manager
passes a Python `int`, so the limit is an `Int`). -/
structure Svc where
  name : String
  can_send : Bool
  can_receive : Bool
  st : SvcState
  d : SendDriver
  recvDriver : Int → List Msg

/-- Errors raised by the manager's own send-resolution code:
`ServiceNotRegistered(via)` and `ServiceSendCapabilityError()`. -/
inductive MgrErr where
  | notRegistered (n : String)
  | sendCapability
  deriving DecidableEq, Repr

/-- Registry lookup (`self.services[via]`): the services dictionary
keyed by name, modelled as the first list entry with that name. -/
def lookupSvc (svcs : List Svc) (n : String) : Option Svc :=
  svcs.find? (fun s => s.name == n)

/-- The service-resolution logic of `ServiceManager._update_send`:
if a `via` keyword was given and is truthy, look it up (raising
`ServiceNotRegistered` when absent); otherwise, if a selector is
installed, invoke it and use a truthy result the same way; otherwise
take the first registered service with `can_send`, raising
`ServiceSendCapabilityError` when there is none.  Python truthiness of
the `via` string is modelled explicitly: the empty string counts as
absent. -/
def resolveService (selector : Option (Fields → Option String))
    (svcs : List Svc) (viaArg : Option String) (f : Fields) :
    Except MgrErr Svc :=
  let viaEff : Option String :=
    match viaArg with
    | some v => if v = "" then none else some v
    | none => none
  let viaEff2 : Option String :=
    match viaEff with
    | some v => some v
    | none =>
        match selector with
        | some sel =>
            match sel f with
            | some v => if v = "" then none else some v
            | none => none
        | none => none
  match viaEff2 with
  | some v =>
      match lookupSvc svcs v with
      | some s => Except.ok s
      | none => Except.error (MgrErr.notRegistered v)
  | none =>
      match (svcs.filter (fun s => s.can_send)).head? with
      | some s => Except.ok s
      | none => Except.error MgrErr.sendCapability

/-- Result of a `ServiceManager` send: a normal return (`none` when the
call returned `None`), one of the manager's own resolution errors, or
an exception propagating out of the resolved service's pipeline. -/
inductive MgrSendOutcome where
  | returned (m : Option Msg)
  | errNotRegistered (n : String)
  | errSendCapability
  | svcOpenRaised
  | svcSendRaised
  deriving DecidableEq, Repr

/-- The tail of `ServiceManager._update_send` once a service is
resolved: the manager publishes its own `on_before_send` (with the
resolved service as sender and the keyword dictionary as payload),
returns `None` if the manager's `suppress` flag is set, delegates to the
service's wrapped `send`, then publishes its own `on_after_send` (with
the manager as sender and the keyword dictionary as payload) and returns
the service's result. -/
def mgrSendTo (mgrName : String) (mSuppress : Bool) (s : Svc)
    (f : Fields) : List Action × MgrSendOutcome :=
  let pre : List Action := [Action.busBeforeSend s.name (Payload.fieldsP f)]
  if mSuppress then
    (pre, MgrSendOutcome.returned none)
  else
    let r := wrappedSend s.name s.d s.st f
    match r.2.2 with
    | SendOutcome.ok m =>
        (pre ++ r.1 ++ [Action.busAfterSend mgrName (Payload.fieldsP f)],
         MgrSendOutcome.returned m)
    | SendOutcome.openRaised => (pre ++ r.1, MgrSendOutcome.svcOpenRaised)
    | SendOutcome.sendRaised => (pre ++ r.1, MgrSendOutcome.svcSendRaised)

/-- Model of `ServiceManager._update_send`, whole: resolve the target service,
then run the manager-level send tail. -/
def managerSend (mgrName : String) (mSuppress : Bool)
    (selector : Option (Fields → Option String)) (svcs : List Svc)
    (viaArg : Option String) (f : Fields) :
    List Action × MgrSendOutcome :=
  match resolveService selector svcs viaArg f with
  | Except.error (MgrErr.notRegistered v) =>
      ([], MgrSendOutcome.errNotRegistered v)
  | Except.error MgrErr.sendCapability =>
      ([], MgrSendOutcome.errSendCapability)
  | Except.ok s => mgrSendTo mgrName mSuppress s f

/-- An item of a lazy receive stream: either an observable `Action` or a
message yielded to the caller, in program order. -/
abbrev RItem := Sum Action Msg

/-- Model of `Service._wrap_receive` for one service: open lazily if `opened` is
not set (a failing driver open aborts the iteration before any message);
then, for every message the driver's `receive(limit=...)` yields, run
`Service._on_receive_message` (force `status = "received"` and publish
`on_receive_message` with the service as sender) before yielding it. -/
def svcReceiveStream (s : Svc) (limit : Int) : List RItem :=
  let opn : List RItem :=
    if s.st.opened then []
    else if s.d.openOk then
      [Sum.inl (Action.driverOpen s.name),
       Sum.inl (Action.busOpenSession s.name)]
    else [Sum.inl (Action.driverOpen s.name)]
  if s.st.opened || s.d.openOk then
    opn ++ (s.recvDriver limit).flatMap (fun m =>
      [Sum.inl (Action.busReceiveMessage s.name
         { m with status := MessageStatus.received }),
       Sum.inr ({ m with status := MessageStatus.received } : Msg)])
  else
    opn

/-- The messages yielded to the caller by a receive stream. -/
def yields (l : List RItem) : List Msg :=
  l.filterMap (fun it =>
    match it with
    | Sum.inl _ => none
    | Sum.inr m => some m)

/-- The per-service loop of `ServiceManager._update_receive`, after the
service list has been selected (the singleton `[services[via]]`, or the
shuffled list of `can_receive` services): iterate the services in the
given order; for every message a service's wrapped `receive` yields,
overwrite its `service` back-reference with the manager when the service
lacks `can_send`, publish `on_receive_message` with the manager as
sender, yield it, and decrement `limit`; the next service's `receive` is
called with the decremented limit. -/
def mgrProcessItem (mgrName : String) (canSend : Bool) (it : RItem) :
    List RItem :=
  match it with
  | Sum.inl a => [Sum.inl a]
  | Sum.inr m =>
      [Sum.inl (Action.busReceiveMessage mgrName
         (if canSend then m else { m with service := some mgrName })),
       Sum.inr (if canSend then m else { m with service := some mgrName })]

def managerReceiveStream (mgrName : String) :
    List Svc → Int → List RItem
  | [], _ => []
  | s :: rest, limit =>
      let items := svcReceiveStream s limit
      (items.flatMap (mgrProcessItem mgrName s.can_send)) ++
        managerReceiveStream mgrName rest
          (limit - (yields items).length)

/-- Outcome of an outbox scope (`Service.outbox`): the scope body either
completed normally or raised an exception (abstracted as a numeric
code), which the scope re-raises. -/
inductive ScopeOutcome where
  | completed
  | raised (e : Nat)
  deriving DecidableEq, Repr

/-- Result of running an outbox scope: the full action trace, the final
service state, the scope outcome, and the outbox buffer as left after
the scope. -/
structure ScopeResult where
  trace : List Action
  final : SvcState
  outcome : ScopeOutcome
  buffer : List Fields
  deriving Repr

/-- The capture phase of `Service.outbox`: the scope body issues a
sequence of sends on the owning service while its `suppress` flag is
forced to `True`, so each send runs the ordinary wrapped pipeline,
publishes `on_before_send` (where the connected capture hook appends the
`(service, fields)` pair to the buffer, in call order), and returns
without touching the driver or the state. -/
def captureRun (name : String) (d : SendDriver) (st : SvcState) :
    List Fields → List Action
  | [] => []
  | f :: rest =>
      (wrappedSendM false name d { st with suppress := true } f).1 ++
        captureRun name d st rest

/-- The replay loop of `Outbox.release`: `while self.data:` pop the LAST
buffered pair and send it for real through the wrapped pipeline, with
`on_before_send` muted; the list argument here is the pop order (the
reverse of the buffer).  The service state is threaded through the
replayed sends. -/
def replaySends (name : String) (d : SendDriver) :
    SvcState → List Fields → List Action × SvcState
  | st, [] => ([], st)
  | st, f :: rest =>
      let r := wrappedSendM true name d st f
      let r2 := replaySends name d r.2.1 rest
      (r.1 ++ r2.1, r2.2)

/-- Model of `Service.outbox` as a whole, for a scope body that issues `body`
sends on the owning service and then either returns normally
(`exc = none`) or raises (`exc = some e`).  Entering the scope connects
the capture hook and forces `suppress = True`; the buffer after the body
is exactly `body`.  On an exception, `Outbox.discard` clears the buffer
and the exception is re-raised (the `finally` block restores `suppress`
and disconnects the hook; `Outbox.release` is never reached).  On normal
exit, the `finally` block runs first, so `Outbox.release` replays the
buffer newest-first through the now-restored (unsuppressed) pipeline
with `on_before_send` muted, emptying the buffer. -/
def outboxScope (name : String) (d : SendDriver) (st : SvcState)
    (body : List Fields) (exc : Option Nat) : ScopeResult :=
  let capTrace := captureRun name d st body
  match exc with
  | some e =>
      { trace := capTrace, final := st, outcome := ScopeOutcome.raised e,
        buffer := [] }
  | none =>
      let r := replaySends name d st body.reverse
      { trace := capTrace ++ r.1, final := r.2,
        outcome := ScopeOutcome.completed, buffer := [] }

/-- The shape every manager receive stream has (claim C9): any yielded
message arrives as the third element of a contiguous block
`[service-level on_receive_message (status forced to received),
manager-level on_receive_message (same message, possibly with the
service back-reference redirected to the manager), yield]`; the only
other items are session-opening actions. -/
inductive ReceiveShape (mgr : String) : List RItem → Prop where
  | nil : ReceiveShape mgr []
  | openDrv (s : String) (rest : List RItem) :
      ReceiveShape mgr rest →
      ReceiveShape mgr (Sum.inl (Action.driverOpen s) :: rest)
  | openBus (s : String) (rest : List RItem) :
      ReceiveShape mgr rest →
      ReceiveShape mgr (Sum.inl (Action.busOpenSession s) :: rest)
  | yieldBlock (s : String) (m0 m : Msg) (rest : List RItem) :
      s ≠ mgr →
      m0.status = MessageStatus.received →
      (m = m0 ∨ m = { m0 with service := some mgr }) →
      ReceiveShape mgr rest →
      ReceiveShape mgr
        (Sum.inl (Action.busReceiveMessage s m0) ::
         Sum.inl (Action.busReceiveMessage mgr m) ::
         Sum.inr m :: rest)

/-- A driver whose open succeeds and whose send returns a sent message
echoing the field set as the message id. -/
def okDriver : SendDriver :=
  ⟨true, fun f => Except.ok { id := some f, status := MessageStatus.sent }⟩

/-- An already-open, unsuppressed service state. -/
def openState : SvcState := ⟨true, false⟩

theorem driverSends_append (l1 l2 : List Action) :
    driverSends (l1 ++ l2) = driverSends l1 ++ driverSends l2 := by
  simp [driverSends]

theorem beforeSends_append (l1 l2 : List Action) :
    beforeSends (l1 ++ l2) = beforeSends l1 ++ beforeSends l2 := by
  simp [beforeSends]

theorem driverOpens_append (l1 l2 : List Action) :
    driverOpens (l1 ++ l2) = driverOpens l1 ++ driverOpens l2 := by
  simp [driverOpens]

theorem yields_append (l1 l2 : List RItem) :
    yields (l1 ++ l2) = yields l1 ++ yields l2 := by
  simp [yields]

theorem captureRun_eq (name : String) (d : SendDriver) (st : SvcState) :
    ∀ body : List Fields,
      captureRun name d st body =
        body.map (fun f => Action.busBeforeSend name (Payload.fieldsP f))
  | [] => rfl
  | f :: rest => by
      simp [captureRun, wrappedSendM, captureRun_eq name d st rest]

theorem driverSends_capture (name : String) (d : SendDriver)
    (st : SvcState) (body : List Fields) :
    driverSends (captureRun name d st body) = [] := by
  rw [captureRun_eq]
  simp [driverSends, List.filterMap_map]

theorem beforeSends_capture (name : String) (d : SendDriver)
    (st : SvcState) (body : List Fields) :
    beforeSends (captureRun name d st body) = body.map Payload.fieldsP := by
  rw [captureRun_eq]
  induction body with
  | nil => rfl
  | cons f rest ih =>
      simp [beforeSends, List.filterMap_cons] at ih ⊢
      exact ih

theorem replaySends_spec (name : String) (d : SendDriver)
    (buf : List Fields) : ∀ st : SvcState,
    st.suppress = false →
    (st.opened = true ∨ d.openOk = true) →
    (∀ f ∈ buf, ∃ m, d.sendRes f = Except.ok m) →
    driverSends (replaySends name d st buf).1 = buf ∧
    beforeSends (replaySends name d st buf).1 = [] := by
  induction buf with
  | nil =>
      intro st _ _ _
      simp [replaySends, driverSends, beforeSends]
  | cons f rest ih =>
      intro st h1 h2 h3
      obtain ⟨m, hm⟩ := h3 f (List.mem_cons_self _ _)
      have hrest := fun g hg => h3 g (List.mem_cons_of_mem _ hg)
      cases ho : st.opened with
      | true =>
          have hr : wrappedSendM true name d st f =
              ([Action.driverSend name f,
                Action.busAfterSend name (Payload.msgP m)], st,
               SendOutcome.ok (some m)) := by
            simp [wrappedSendM, h1, ho, hm]
          have ihr := ih st h1 (Or.inl ho) hrest
          have hstep : (replaySends name d st (f :: rest)).1 =
              [Action.driverSend name f,
               Action.busAfterSend name (Payload.msgP m)] ++
                (replaySends name d st rest).1 := by
            simp [replaySends, hr]
          rw [hstep, driverSends_append, beforeSends_append, ihr.1, ihr.2]
          refine ⟨?_, ?_⟩ <;> simp [driverSends, beforeSends]
      | false =>
          have hk : d.openOk = true := by
            rcases h2 with h | h
            · rw [ho] at h; cases h
            · exact h
          have hr : wrappedSendM true name d st f =
              ([Action.driverOpen name, Action.busOpenSession name,
                Action.driverSend name f,
                Action.busAfterSend name (Payload.msgP m)],
               { st with opened := true },
               SendOutcome.ok (some m)) := by
            simp [wrappedSendM, wrappedOpen, h1, ho, hk, hm]
          have ihr := ih { st with opened := true } h1 (Or.inl rfl) hrest
          have hstep : (replaySends name d st (f :: rest)).1 =
              [Action.driverOpen name, Action.busOpenSession name,
               Action.driverSend name f,
               Action.busAfterSend name (Payload.msgP m)] ++
                (replaySends name d { st with opened := true } rest).1 := by
            simp [replaySends, hr]
          rw [hstep, driverSends_append, beforeSends_append, ihr.1, ihr.2]
          refine ⟨?_, ?_⟩ <;> simp [driverSends, beforeSends]

/-- Claim C2: for every outbox scope on a service, if an exception
escapes the scope body, no driver send is ever invoked for the buffered
sends (the whole scope trace contains no driver-send invocation — the
buffer is discarded, and `Outbox.release` is never reached), and the
scope re-raises the original exception unmodified after the discard
(the outcome is `raised e` with the buffer already cleared). -/
theorem outbox_exception_discards_all (name : String) (d : SendDriver)
    (st : SvcState) (body : List Fields) (e : Nat) :
    driverSends (outboxScope name d st body (some e)).trace = [] ∧
    (outboxScope name d st body (some e)).outcome = ScopeOutcome.raised e ∧
    (outboxScope name d st body (some e)).buffer = [] := by
  refine ⟨?_, rfl, rfl⟩
  simpa [outboxScope] using driverSends_capture name d st body

/-- Claim C3, counterexample: with two buffered sends (fields `0` then
`1`) on an open, unsuppressed service whose driver always succeeds, the
normal-exit replay invokes the driver newest-first (`[1, 0]`), not
oldest-first (`[0, 1]`) as the claim states — `Outbox.release` pops the
buffer from the end. -/
theorem outbox_release_order_cex :
    driverSends (outboxScope "a" okDriver openState [0, 1] none).trace
      = [1, 0] ∧
    ([1, 0] : List Fields) ≠ [0, 1] := by
  constructor
  · rfl
  · decide

/-- Claim C3 as amended: on normal exit of an outbox scope, every
buffered `(service, fields)` pair is sent for real — but in
newest-first (LIFO) order, i.e. the driver-send sequence is the reverse
of the capture order — with before-send notification muted during the
replay (the only `on_before_send` publications in the whole scope trace
are the one-per-send capture-phase ones), leaving the buffer empty. -/
theorem outbox_release_newest_first (name : String) (d : SendDriver)
    (st : SvcState) (body : List Fields)
    (h1 : st.suppress = false)
    (h2 : st.opened = true ∨ d.openOk = true)
    (h3 : ∀ f ∈ body, ∃ m, d.sendRes f = Except.ok m) :
    driverSends (outboxScope name d st body none).trace = body.reverse ∧
    beforeSends (outboxScope name d st body none).trace =
      body.map Payload.fieldsP ∧
    (outboxScope name d st body none).buffer = [] := by
  have h3r : ∀ f ∈ body.reverse, ∃ m, d.sendRes f = Except.ok m := by
    intro f hf
    exact h3 f (List.mem_reverse.mp hf)
  have hr := replaySends_spec name d body.reverse st h1 h2 h3r
  refine ⟨?_, ?_, rfl⟩
  · simp [outboxScope, driverSends_append, driverSends_capture, hr.1]
  · simp [outboxScope, beforeSends_append, beforeSends_capture, hr.2]

/-- Witness for `outbox_release_newest_first` at a concrete input. -/
theorem outbox_release_newest_first_witness :
    driverSends (outboxScope "a" okDriver openState [2, 3] none).trace
      = List.reverse [2, 3] ∧
    beforeSends (outboxScope "a" okDriver openState [2, 3] none).trace
      = List.map Payload.fieldsP [2, 3] ∧
    (outboxScope "a" okDriver openState [2, 3] none).buffer = [] :=
  outbox_release_newest_first "a" okDriver openState [2, 3] rfl
    (Or.inl rfl) (fun _ _ => ⟨_, rfl⟩)

/-- Claim C4: while the `suppress` flag is set, a wrapped send publishes
`on_before_send` and returns immediately: the whole call is exactly that
single publication (no driver open, no driver send, no
`on_after_send`), the state is unchanged (so `opened` stays false if it
was false), and the call returns `None`. -/
theorem suppressed_send_skips_driver (name : String) (d : SendDriver)
    (st : SvcState) (f : Fields) (h : st.suppress = true) :
    wrappedSend name d st f =
      ([Action.busBeforeSend name (Payload.fieldsP f)], st,
       SendOutcome.ok none) := by
  simp [wrappedSend, wrappedSendM, h]

/-- Witness for `suppressed_send_skips_driver` at a concrete input. -/
theorem suppressed_send_skips_driver_witness :
    wrappedSend "a" okDriver ⟨false, true⟩ 5 =
      ([Action.busBeforeSend "a" (Payload.fieldsP 5)],
       (⟨false, true⟩ : SvcState), SendOutcome.ok none) :=
  suppressed_send_skips_driver "a" okDriver ⟨false, true⟩ 5 rfl

/-- Claim C5, counterexample: on a closed service whose driver open
succeeds, calling the wrapped `open()` twice in a row invokes the
driver's open twice, not once — the wrapper has no `opened` guard. -/
theorem open_twice_cex :
    (driverOpens (openTwice "a" okDriver ⟨false, false⟩).1).length = 2 ∧
    (2 : Nat) ≠ 1 := by
  constructor
  · rfl
  · decide

/-- Claim C5 as amended: the wrapped `open()` is not idempotent — every
call invokes the driver's open exactly once (so two consecutive calls
invoke it exactly twice), regardless of the `opened` flag.  The
idempotence the spec describes lives at the pipeline's call sites
instead: a wrapped send on a service whose `opened` flag is already true
invokes the driver's open zero times. -/
theorem open_invokes_driver_each_call (name : String) (d : SendDriver)
    (st : SvcState) :
    (driverOpens (wrappedOpen name d st).1).length = 1 ∧
    (driverOpens (openTwice name d st).1).length = 2 ∧
    (st.opened = true → ∀ (muted : Bool) (f : Fields),
      driverOpens (wrappedSendM muted name d st f).1 = []) := by
  refine ⟨?_, ?_, ?_⟩
  · cases hk : d.openOk <;> simp [wrappedOpen, hk, driverOpens]
  · cases hk : d.openOk <;>
      simp [openTwice, wrappedOpen, hk, driverOpens_append, driverOpens]
  · intro ho muted f
    cases hs : st.suppress <;> cases hr : d.sendRes f <;>
      cases muted <;>
        simp [wrappedSendM, hs, ho, hr, driverOpens_append, driverOpens]

/-- Witness for `open_invokes_driver_each_call` at a concrete input. -/
theorem open_invokes_driver_each_call_witness :
    (driverOpens (wrappedOpen "a" okDriver openState).1).length = 1 ∧
    (driverOpens (openTwice "a" okDriver openState).1).length = 2 ∧
    (openState.opened = true → ∀ (muted : Bool) (f : Fields),
      driverOpens (wrappedSendM muted "a" okDriver openState f).1 = []) :=
  open_invokes_driver_each_call "a" okDriver openState

/-- Claim C10: a suppressed send returns no `Message` at all.  At the
service level, a wrapped send with `suppress` set returns `None`
(after its `on_before_send` publication); at the manager level, a
manager send with the manager's `suppress` set returns `None` right
after the manager's own `on_before_send` publication, whichever service
was resolved. -/
theorem suppressed_send_returns_none :
    (∀ (muted : Bool) (name : String) (d : SendDriver) (st : SvcState)
        (f : Fields), st.suppress = true →
      (wrappedSendM muted name d st f).2.2 = SendOutcome.ok none) ∧
    (∀ (mgrName : String) (selector : Option (Fields → Option String))
        (svcs : List Svc) (viaArg : Option String) (f : Fields) (s : Svc),
      resolveService selector svcs viaArg f = Except.ok s →
      managerSend mgrName true selector svcs viaArg f =
        ([Action.busBeforeSend s.name (Payload.fieldsP f)],
         MgrSendOutcome.returned none)) := by
  constructor
  · intro muted name d st f h
    simp [wrappedSendM, h]
  · intro mgrName selector svcs viaArg f s hres
    simp [managerSend, hres, mgrSendTo]

/-- Witness for `suppressed_send_returns_none` at concrete inputs. -/
theorem suppressed_send_returns_none_witness :
    (wrappedSendM false "a" okDriver ⟨false, true⟩ 5).2.2 =
      SendOutcome.ok none ∧
    managerSend "m" true none
        [⟨"a", true, true, openState, okDriver, fun _ => []⟩] none 7 =
      ([Action.busBeforeSend "a" (Payload.fieldsP 7)],
       MgrSendOutcome.returned none) :=
  ⟨suppressed_send_returns_none.1 false "a" okDriver ⟨false, true⟩ 5 rfl,
   suppressed_send_returns_none.2 "m" none
     [⟨"a", true, true, openState, okDriver, fun _ => []⟩] none 7
     ⟨"a", true, true, openState, okDriver, fun _ => []⟩ rfl⟩

/-- A driver whose open succeeds and whose send always raises. -/
def errDriver : SendDriver := ⟨true, fun _ => Except.error 3⟩

/-- Claim C6: for a send where the driver succeeds (the service is
unsuppressed and the session opens), `on_before_send` fires strictly
before the driver's send and `on_after_send` fires strictly after,
carrying the `Message` the driver produced; and whenever the driver's
send raises, the call publishes no `on_after_send` at all. -/
theorem send_event_ordering (name : String) (d : SendDriver)
    (st : SvcState) (f : Fields) :
    (∀ m : Msg, st.suppress = false → (st.opened = true ∨ d.openOk = true) →
      d.sendRes f = Except.ok m →
      ∃ mid : List Action,
        (wrappedSend name d st f).1 =
          Action.busBeforeSend name (Payload.fieldsP f) ::
            (mid ++ [Action.driverSend name f,
                     Action.busAfterSend name (Payload.msgP m)]) ∧
        Action.driverSend name f ∉ mid) ∧
    (∀ e : Nat, d.sendRes f = Except.error e →
      ∀ p : Payload,
        Action.busAfterSend name p ∉ (wrappedSend name d st f).1) := by
  constructor
  · intro m h1 h2 hm
    cases ho : st.opened with
    | true =>
        refine ⟨[], ?_, by simp⟩
        simp [wrappedSend, wrappedSendM, h1, ho, hm]
    | false =>
        have hk : d.openOk = true := by
          rcases h2 with h | h
          · rw [ho] at h; cases h
          · exact h
        refine ⟨[Action.driverOpen name, Action.busOpenSession name],
          ?_, by simp⟩
        simp [wrappedSend, wrappedSendM, wrappedOpen, h1, ho, hk, hm]
  · intro e he p
    cases hs : st.suppress with
    | true => simp [wrappedSend, wrappedSendM, hs]
    | false =>
        cases ho : st.opened with
        | true => simp [wrappedSend, wrappedSendM, hs, ho, he]
        | false =>
            cases hk : d.openOk with
            | true =>
                simp [wrappedSend, wrappedSendM, wrappedOpen, hs, ho, hk, he]
            | false =>
                simp [wrappedSend, wrappedSendM, wrappedOpen, hs, ho, hk]

/-- Witness for `send_event_ordering` at concrete inputs: a succeeding
driver shows the before/driver/after ordering, a raising driver shows
the absence of a concrete after-send publication. -/
theorem send_event_ordering_witness :
    (∃ mid : List Action,
      (wrappedSend "a" okDriver openState 5).1 =
        Action.busBeforeSend "a" (Payload.fieldsP 5) ::
          (mid ++ [Action.driverSend "a" 5,
                   Action.busAfterSend "a"
                     (Payload.msgP { id := some 5,
                                     status := MessageStatus.sent })]) ∧
      Action.driverSend "a" 5 ∉ mid) ∧
    Action.busAfterSend "a" (Payload.fieldsP 9) ∉
      (wrappedSend "a" errDriver openState 5).1 :=
  ⟨(send_event_ordering "a" okDriver openState 5).1
      { id := some 5, status := MessageStatus.sent } rfl (Or.inl rfl) rfl,
   (send_event_ordering "a" errDriver openState 5).2 3 rfl
      (Payload.fieldsP 9)⟩

/-- Claim C7: resolution order of a manager send — an explicit non-empty
`via` name selects that service, raising `ServiceNotRegistered` when
absent; otherwise an installed selector's non-empty result is used the
same way; otherwise the first registered service with send capability is
used, raising `ServiceSendCapabilityError` when none qualifies —
including with zero registered services, and with a single registered
service lacking send capability. -/
theorem manager_send_resolution (mgrName : String) (mSuppress : Bool)
    (selector : Option (Fields → Option String)) (svcs : List Svc)
    (f : Fields) :
    (∀ v : String, v ≠ "" → lookupSvc svcs v = none →
      managerSend mgrName mSuppress selector svcs (some v) f =
        ([], MgrSendOutcome.errNotRegistered v)) ∧
    (∀ (v : String) (s : Svc), v ≠ "" → lookupSvc svcs v = some s →
      managerSend mgrName mSuppress selector svcs (some v) f =
        mgrSendTo mgrName mSuppress s f) ∧
    (∀ (g : Fields → Option String) (v : String), selector = some g →
      g f = some v → v ≠ "" → lookupSvc svcs v = none →
      managerSend mgrName mSuppress selector svcs none f =
        ([], MgrSendOutcome.errNotRegistered v)) ∧
    (∀ (g : Fields → Option String) (v : String) (s : Svc),
      selector = some g → g f = some v → v ≠ "" →
      lookupSvc svcs v = some s →
      managerSend mgrName mSuppress selector svcs none f =
        mgrSendTo mgrName mSuppress s f) ∧
    (selector = none →
      managerSend mgrName mSuppress none svcs none f =
        (match (svcs.filter (fun s => s.can_send)).head? with
         | some s => mgrSendTo mgrName mSuppress s f
         | none => ([], MgrSendOutcome.errSendCapability))) ∧
    (svcs = [] →
      managerSend mgrName mSuppress none [] none f =
        ([], MgrSendOutcome.errSendCapability)) ∧
    (∀ s : Svc, s.can_send = false →
      managerSend mgrName mSuppress none [s] none f =
        ([], MgrSendOutcome.errSendCapability)) := by
  refine ⟨?_, ?_, ?_, ?_, ?_, ?_, ?_⟩
  · intro v hv hl
    simp [managerSend, resolveService, hv, hl]
  · intro v s hv hl
    simp [managerSend, resolveService, hv, hl]
  · intro g v hg hgf hv hl
    simp [managerSend, resolveService, hg, hgf, hv, hl]
  · intro g v s hg hgf hv hl
    simp [managerSend, resolveService, hg, hgf, hv, hl]
  · intro _
    cases hh : (svcs.filter (fun s => s.can_send)).head? <;>
      simp [managerSend, resolveService, hh]
  · intro h
    subst h
    simp [managerSend, resolveService, lookupSvc]
  · intro s hs
    simp [managerSend, resolveService, lookupSvc, hs]

/-- Witness for `manager_send_resolution` at concrete inputs: a missing
`via` name raises not-registered; an empty registry raises
send-capability. -/
theorem manager_send_resolution_witness :
    managerSend "m" false none [] (some "x") 7 =
      ([], MgrSendOutcome.errNotRegistered "x") ∧
    managerSend "m" false none [] none 7 =
      ([], MgrSendOutcome.errSendCapability) :=
  ⟨(manager_send_resolution "m" false none [] 7).1 "x" (by decide) rfl,
   (manager_send_resolution "m" false none [] 7).2.2.2.2.2.1 rfl⟩

/-- A send-capable, already-open, unsuppressed test service. -/
def svcA : Svc := ⟨"a", true, true, openState, okDriver, fun _ => []⟩

/-- Claim C8, counterexample: on a manager with one registered
send-capable service and `suppress` unset, a manager send publishes
`on_before_send` twice and `on_after_send` twice — the manager's own
publications in addition to the resolved service's — and with the
manager's `suppress` flag set (while the service itself is
unsuppressed), the manager returns `None` before the service pipeline
runs, so manager-level suppression does exist, contrary to the claim. -/
theorem manager_send_duplicate_events_cex :
    (beforeSends (managerSend "m" false none [svcA] none 7).1).length
      = 2 ∧
    (afterSends (managerSend "m" false none [svcA] none 7).1).length
      = 2 ∧
    driverSends (managerSend "m" true none [svcA] none 7).1 = [] ∧
    (managerSend "m" true none [svcA] none 7).2 =
      MgrSendOutcome.returned none :=
  ⟨rfl, rfl, rfl, rfl⟩

/-- Claim C8 as amended: for a manager send that resolves to a target
service, the manager publishes its own `on_before_send` (sender = the
resolved service, payload = the candidate fields) before delegating and
its own `on_after_send` (sender = the manager, payload = the fields, not
the produced message) after delegating, and applies its own
manager-level `suppress` check between its before-send publication and
the delegation, returning `None` without running the service pipeline
when set; the resolved service's pipeline (with its own suppression and
events) runs in between, so a fully successful send carries two
before-send and two after-send publications. -/
theorem manager_send_own_events (mgrName : String) (mSuppress : Bool)
    (selector : Option (Fields → Option String)) (svcs : List Svc)
    (viaArg : Option String) (f : Fields) (s : Svc)
    (hres : resolveService selector svcs viaArg f = Except.ok s) :
    managerSend mgrName mSuppress selector svcs viaArg f =
      mgrSendTo mgrName mSuppress s f ∧
    (mSuppress = true →
      managerSend mgrName mSuppress selector svcs viaArg f =
        ([Action.busBeforeSend s.name (Payload.fieldsP f)],
         MgrSendOutcome.returned none)) ∧
    (mSuppress = false → ∀ m : Msg, s.st.suppress = false →
      s.st.opened = true → s.d.sendRes f = Except.ok m →
      managerSend mgrName mSuppress selector svcs viaArg f =
        ([Action.busBeforeSend s.name (Payload.fieldsP f),
          Action.busBeforeSend s.name (Payload.fieldsP f),
          Action.driverSend s.name f,
          Action.busAfterSend s.name (Payload.msgP m),
          Action.busAfterSend mgrName (Payload.fieldsP f)],
         MgrSendOutcome.returned (some m))) := by
  refine ⟨?_, ?_, ?_⟩
  · simp [managerSend, hres]
  · intro hs
    simp [managerSend, hres, mgrSendTo, hs]
  · intro hs m hsup ho hok
    simp [managerSend, hres, mgrSendTo, hs, wrappedSend, wrappedSendM,
      hsup, ho, hok]

/-- Witness for `manager_send_own_events` at a concrete input. -/
theorem manager_send_own_events_witness :
    managerSend "m" false none [svcA] none 7 =
      ([Action.busBeforeSend "a" (Payload.fieldsP 7),
        Action.busBeforeSend "a" (Payload.fieldsP 7),
        Action.driverSend "a" 7,
        Action.busAfterSend "a"
          (Payload.msgP { id := some 7, status := MessageStatus.sent }),
        Action.busAfterSend "m" (Payload.fieldsP 7)],
       MgrSendOutcome.returned
         (some { id := some 7, status := MessageStatus.sent })) :=
  (manager_send_own_events "m" false none [svcA] none 7 svcA rfl).2.2 rfl
    { id := some 7, status := MessageStatus.sent } rfl rfl rfl

theorem yields_cons_inl (a : Action) (l : List RItem) :
    yields (Sum.inl a :: l) = yields l := rfl

theorem yields_cons_inr (m : Msg) (l : List RItem) :
    yields (Sum.inr m :: l) = m :: yields l := rfl

theorem yields_flatMap_proc (mgrName : String) (canSend : Bool)
    (l : List RItem) :
    (yields (l.flatMap (mgrProcessItem mgrName canSend))).length =
      (yields l).length := by
  induction l with
  | nil => rfl
  | cons it rest ih =>
      cases it with
      | inl a =>
          have h1 : yields (mgrProcessItem mgrName canSend (Sum.inl a))
              = [] := rfl
          rw [List.flatMap_cons, yields_append, h1, List.nil_append,
            yields_cons_inl]
          exact ih
      | inr m =>
          have h2 : yields (mgrProcessItem mgrName canSend (Sum.inr m))
              = [if canSend then m
                 else { m with service := some mgrName }] := rfl
          rw [List.flatMap_cons, yields_append, h2, yields_cons_inr]
          simp [ih]

theorem yields_rcvBlocks (sName : String) (raw : List Msg) :
    (yields (raw.flatMap (fun m =>
      [Sum.inl (Action.busReceiveMessage sName
         { m with status := MessageStatus.received }),
       Sum.inr ({ m with status := MessageStatus.received } :
         Msg)]))).length = raw.length := by
  induction raw with
  | nil => rfl
  | cons m raw ih =>
      have h1 : yields
          [Sum.inl (Action.busReceiveMessage sName
             { m with status := MessageStatus.received }),
           Sum.inr ({ m with status := MessageStatus.received } : Msg)]
          = [{ m with status := MessageStatus.received }] := rfl
      rw [List.flatMap_cons, yields_append, h1]
      simp [ih]

theorem yields_svcReceiveStream_le (s : Svc) (limit : Int) :
    (yields (svcReceiveStream s limit)).length ≤
      (s.recvDriver limit).length := by
  cases ho : s.st.opened with
  | true =>
      simp only [svcReceiveStream, ho, Bool.true_or, if_true]
      rw [List.nil_append, yields_rcvBlocks]
  | false =>
      cases hk : s.d.openOk with
      | true =>
          have h1 : yields (if (false = true) then ([] : List RItem)
              else [Sum.inl (Action.driverOpen s.name),
                    Sum.inl (Action.busOpenSession s.name)]) = [] := rfl
          simp only [svcReceiveStream, ho, hk, Bool.false_or, if_true,
            if_false]
          rw [yields_append, h1, List.nil_append, yields_rcvBlocks]
      | false =>
          simp [svcReceiveStream, ho, hk, yields]

/-- Claim C1: a manager receive across any list of services (in any
iteration order — `via` gives a singleton list, fan-out a shuffled one)
yields at most `limit` messages in total, assuming every service's
driver `receive(limit=k)` yields at most `k` messages: the remaining
limit is decremented once per yielded message and the remainder is
passed to each subsequent service. -/
theorem manager_receive_respects_limit (mgrName : String)
    (svcs : List Svc) (limit : Int) (hN : 0 ≤ limit)
    (hdrv : ∀ s ∈ svcs, ∀ k : Int, 0 ≤ k →
      ((s.recvDriver k).length : Int) ≤ k) :
    ((yields (managerReceiveStream mgrName svcs limit)).length : Int)
      ≤ limit := by
  revert hN hdrv
  induction svcs generalizing limit with
  | nil =>
      intro hN _
      simpa [managerReceiveStream, yields] using hN
  | cons s rest ih =>
      intro hN hdrv
      have hone :
          ((yields (svcReceiveStream s limit)).length : Int) ≤ limit :=
        le_trans
          (by exact_mod_cast yields_svcReceiveStream_le s limit)
          (hdrv s (List.mem_cons_self _ _) limit hN)
      have h0 : (0 : Int) ≤ limit -
          (yields (svcReceiveStream s limit)).length := by omega
      have hrest := ih
        (limit - (yields (svcReceiveStream s limit)).length) h0
        (fun s' hs' => hdrv s' (List.mem_cons_of_mem _ hs'))
      have hdecomp :
          (yields (managerReceiveStream mgrName (s :: rest) limit)).length
            = (yields ((svcReceiveStream s limit).flatMap
                (mgrProcessItem mgrName s.can_send))).length +
              (yields (managerReceiveStream mgrName rest
                (limit -
                  (yields (svcReceiveStream s limit)).length))).length := by
        simp [managerReceiveStream, yields_append]
      rw [hdecomp, yields_flatMap_proc]
      omega

/-- A receive-only (no send capability) open test service whose driver
yields one message when the limit is positive. -/
def svcB : Svc :=
  ⟨"b", false, true, openState, okDriver,
   fun k => if k ≤ 0 then [] else [{ id := some 1 }]⟩

/-- Witness for `manager_receive_respects_limit`: three one-message
services under a fan-out with `limit = 2` yield at most 2 messages. -/
theorem manager_receive_respects_limit_witness :
    ((yields (managerReceiveStream "m" [svcB, svcB, svcB] 2)).length :
      Int) ≤ 2 :=
  manager_receive_respects_limit "m" [svcB, svcB, svcB] 2 (by norm_num)
    (by
      intro s hs k hk
      have hsb : s = svcB := by simpa using hs
      subst hsb
      simp only [svcB]
      by_cases h0 : k ≤ 0
      · simp [h0]
        exact hk
      · simp only [h0, if_false]
        simp
        omega)

theorem receiveShape_blocks (mgr sName : String) (hs : sName ≠ mgr)
    (canSend : Bool) (raw : List Msg) (tail : List RItem)
    (htail : ReceiveShape mgr tail) :
    ReceiveShape mgr
      (((raw.flatMap (fun m =>
          [Sum.inl (Action.busReceiveMessage sName
             { m with status := MessageStatus.received }),
           Sum.inr ({ m with status := MessageStatus.received } :
             Msg)])).flatMap (mgrProcessItem mgr canSend)) ++ tail) := by
  induction raw with
  | nil => simpa using htail
  | cons m raw ih =>
      rw [List.flatMap_cons, List.flatMap_append, List.flatMap_cons,
        List.flatMap_cons, List.flatMap_nil]
      simp only [mgrProcessItem, List.append_assoc, List.cons_append,
        List.nil_append, List.append_nil]
      exact ReceiveShape.yieldBlock sName _ _ _ hs rfl
        (by cases canSend <;> simp) ih

/-- Claim C9: on every manager receive (with `via` the selected list is
the one named service; without it, the shuffled receive-capable
services), every message a service produces reaches the caller as the
third element of a contiguous block: the underlying service's wrapper
publishes `on_receive_message` (having forced the message status to
`received`), then the manager publishes `on_receive_message` for the
same message (with the `service` back-reference possibly redirected to
the manager), and only then is the message yielded — so each message
triggers the event twice before the caller sees it. -/
theorem manager_receive_double_event (mgrName : String)
    (svcs : List Svc) (limit : Int)
    (h : ∀ s ∈ svcs, s.name ≠ mgrName) :
    ReceiveShape mgrName (managerReceiveStream mgrName svcs limit) := by
  revert h
  induction svcs generalizing limit with
  | nil =>
      intro _
      exact ReceiveShape.nil
  | cons s rest ih =>
      intro h
      have hs : s.name ≠ mgrName := h s (List.mem_cons_self _ _)
      have hcons : managerReceiveStream mgrName (s :: rest) limit =
          ((svcReceiveStream s limit).flatMap
            (mgrProcessItem mgrName s.can_send)) ++
          managerReceiveStream mgrName rest
            (limit - (yields (svcReceiveStream s limit)).length) := by
        simp [managerReceiveStream]
      rw [hcons]
      have hrest := ih (limit - (yields (svcReceiveStream s limit)).length)
        (fun s' hs' => h s' (List.mem_cons_of_mem _ hs'))
      set tl := managerReceiveStream mgrName rest
        (limit - (yields (svcReceiveStream s limit)).length) with htl
      cases ho : s.st.opened with
      | true =>
          have hsvc : svcReceiveStream s limit =
              (s.recvDriver limit).flatMap (fun m =>
                [Sum.inl (Action.busReceiveMessage s.name
                   { m with status := MessageStatus.received }),
                 Sum.inr ({ m with status := MessageStatus.received } :
                   Msg)]) := by
            simp [svcReceiveStream, ho]
          rw [hsvc]
          exact receiveShape_blocks mgrName s.name hs s.can_send
            (s.recvDriver limit) tl hrest
      | false =>
          cases hk : s.d.openOk with
          | true =>
              have hsvc : svcReceiveStream s limit =
                  Sum.inl (Action.driverOpen s.name) ::
                  Sum.inl (Action.busOpenSession s.name) ::
                  (s.recvDriver limit).flatMap (fun m =>
                    [Sum.inl (Action.busReceiveMessage s.name
                       { m with status := MessageStatus.received }),
                     Sum.inr ({ m with status := MessageStatus.received } :
                       Msg)]) := by
                simp [svcReceiveStream, ho, hk]
              rw [hsvc, List.flatMap_cons, List.flatMap_cons]
              simp only [mgrProcessItem, List.cons_append,
                List.nil_append, List.append_assoc]
              exact ReceiveShape.openDrv _ _
                (ReceiveShape.openBus _ _
                  (receiveShape_blocks mgrName s.name hs s.can_send
                    (s.recvDriver limit) tl hrest))
          | false =>
              have hsvc : svcReceiveStream s limit =
                  [Sum.inl (Action.driverOpen s.name)] := by
                simp [svcReceiveStream, ho, hk]
              rw [hsvc, List.flatMap_cons, List.flatMap_nil]
              simp only [mgrProcessItem, List.cons_append,
                List.nil_append, List.append_nil]
              exact ReceiveShape.openDrv _ _ hrest

/-- A receive-only open test service whose driver always yields one
draft message. -/
def svcC : Svc :=
  ⟨"c", false, true, openState, okDriver, fun _ => [{ id := some 4 }]⟩

/-- Witness for `manager_receive_double_event` at a concrete input. -/
theorem manager_receive_double_event_witness :
    ReceiveShape "m" (managerReceiveStream "m" [svcC] 5) :=
  manager_receive_double_event "m" [svcC] 5
    (by
      intro s hs
      have hsc : s = svcC := by simpa using hs
      subst hsc
      simp [svcC])

end Owlery
